import Mathlib

/-!
Shallow embedding of the table-games engine (blackjack, roulette, baccarat)
from the repository source, together with theorems settling the spec claims.

Conventions used throughout:
- TypeScript string-literal union types become Lean inductives.
- JavaScript `Map` objects (`tables`, `gameStates`, `playerHands`, `bets`)
  become association lists (`List (String × _)`) with `aget`/`aset` mirroring
  `Map.get`/`Map.set` (overwrite-or-append, first match wins on lookup).
- JavaScript numbers used for money are modelled as rationals (`Rat`);
  card scores and roulette numbers are natural numbers.
- A JavaScript runtime `TypeError` (for example iterating `undefined`, or the
  score of a hand into which `deck.pop()` pushed `undefined`) is modelled as
  `Except.error "TypeError"`; structured `{ success: false, error }` results
  are ordinary `Except.ok` values carrying a response record.
- Decks are kept in JavaScript array order; `deck.pop()` removes the LAST
  element, modelled by `jsPop`.
-/

namespace TableGames

/-- Money amounts (JavaScript numbers used for bets/payouts/balances). -/
abbrev Money := Rat

/-- Card suits, from the `Card` interface. -/
inductive Suit : Type
  | hearts | diamonds | clubs | spades
deriving DecidableEq, Repr

/-- Card ranks, from the `Card` interface. `r2`..`r9` are the string ranks "2".."9". -/
inductive Rank : Type
  | A | r2 | r3 | r4 | r5 | r6 | r7 | r8 | r9 | T | J | Q | K
deriving DecidableEq, Repr

/-- A card: suit, rank and the stored `value` field set by `createDeck`. -/
structure Card where
  suit : Suit
  rank : Rank
  value : Nat
deriving DecidableEq, Repr

/-- The result of `parseInt(rank)` on a rank string: the numeric ranks parse to
their face value. (In the source, `parseInt` is only ever reached for
"2".."9"; the letter ranks are intercepted by the preceding ternary branches.) -/
def parseIntRank : Rank → Nat
  | .r2 => 2 | .r3 => 3 | .r4 => 4 | .r5 => 5 | .r6 => 6
  | .r7 => 7 | .r8 => 8 | .r9 => 9
  | _ => 0

/-- The ternary chain in `createDeck` computing the stored `value` field:
`rank === "A" ? 11 : ["J","Q","K"].includes(rank) ? 10 : rank === "T" ? 10 : parseInt(rank)`. -/
def cardValueOf (r : Rank) : Nat :=
  if r = .A then 11
  else if r ∈ [Rank.J, Rank.Q, Rank.K] then 10
  else if r = .T then 10
  else parseIntRank r

/-- The `suits` array in `createDeck`. -/
def suitList : List Suit := [.hearts, .diamonds, .clubs, .spades]

/-- The `ranks` array in `createDeck`. -/
def rankList : List Rank :=
  [.A, .r2, .r3, .r4, .r5, .r6, .r7, .r8, .r9, .T, .J, .Q, .K]

/-- The deck built by the nested loops of `createDeck`, before shuffling:
for each suit, for each rank, push `{suit, rank, value}`. -/
def freshDeckBase : List Card :=
  suitList.flatMap (fun s => rankList.map (fun r => ⟨s, r, cardValueOf r⟩))

/-- The `createDeck` function: build the 52-card deck and pass it to the
inherited `shuffleArray` (not in the analysed sources, so the shuffle is a
parameter; claims about decks assume it permutes its input). -/
def createDeck (shuffle : List Card → List Card) : List Card :=
  shuffle freshDeckBase

/-- The for-loop of `calculateBlackjackScore`: accumulates `(score, aces)`,
adding 11 and counting an ace for rank "A", else adding `card.value`. -/
def bjFold (hand : List Card) : Nat × Nat :=
  hand.foldl
    (fun acc c => if c.rank = .A then (acc.1 + 11, acc.2 + 1) else (acc.1 + c.value, acc.2))
    (0, 0)

/-- The `while (score > 21 && aces > 0) { score -= 10; aces--; }` loop of
`calculateBlackjackScore`, as structural recursion on the ace count. -/
def adjustAces : Nat → Nat → Nat
  | score, 0 => score
  | score, aces + 1 => if 21 < score then adjustAces (score - 10) aces else score

/-- The `calculateBlackjackScore` function. -/
def calculateBlackjackScore (hand : List Card) : Nat :=
  adjustAces (bjFold hand).1 (bjFold hand).2

/-- The per-card ternary chain of `calculateBaccaratValue`:
`A → 1`, `J/Q/K → 0`, `T → 0`, numeric → `parseInt(rank)`. -/
def baccaratCardValue (r : Rank) : Nat :=
  if r = .A then 1
  else if r ∈ [Rank.J, Rank.Q, Rank.K] then 0
  else if r = .T then 0
  else parseIntRank r

/-- The `calculateBaccaratValue` function: reduce the per-card values and
take the total modulo 10. -/
def calculateBaccaratValue (cards : List Card) : Nat :=
  (cards.foldl (fun sum c => sum + baccaratCardValue c.rank) 0) % 10

/-- The `shouldBankerDrawThird` function, including its `rules` lookup table
and the `rules[bankerValue]?.includes(playerThirdCard) || false` fallback.
Note the second argument is whatever number the caller passes; `playBaccarat`
passes `thirdCard.value`, the blackjack-tagged value field. -/
def shouldBankerDrawThird (bankerValue : Nat) (playerThirdCard : Nat) : Bool :=
  if 7 ≤ bankerValue then false
  else if bankerValue ≤ 2 then true
  else if bankerValue = 3 then [0, 1, 2, 3, 4, 5, 6, 7, 9].contains playerThirdCard
  else if bankerValue = 4 then [2, 3, 4, 5, 6, 7].contains playerThirdCard
  else if bankerValue = 5 then [4, 5, 6, 7].contains playerThirdCard
  else if bankerValue = 6 then [6, 7].contains playerThirdCard
  else false

/-! Association-list model of JavaScript `Map` objects. -/

/-- Lookup mirroring `Map.get`: first entry with the given key, else `undefined`. -/
def aget {α : Type} (m : List (String × α)) (k : String) : Option α :=
  match m with
  | [] => none
  | (k1, v) :: t => if k1 = k then some v else aget t k

/-- Update mirroring `Map.set`: overwrite the existing entry for the key, or
append a new entry preserving insertion order. -/
def aset {α : Type} (m : List (String × α)) (k : String) (v : α) : List (String × α) :=
  match m with
  | [] => [(k, v)]
  | (k1, w) :: t => if k1 = k then (k1, v) :: t else (k1, w) :: aset t k v

/-- In-place mutation of the first entry with the given key (the JavaScript
pattern `const x = map.get(k); mutate(x)` on a shared object reference). -/
def aupdate {α : Type} (m : List (String × α)) (k : String) (f : α → α) :
    List (String × α) :=
  match m with
  | [] => []
  | (k1, v) :: t => if k1 = k then (k1, f v) :: t else (k1, v) :: aupdate t k f

/-! Data model of the engine. -/

/-- Game type of a table (the `"blackjack" | "roulette" | "baccarat"` union). -/
inductive GameType : Type
  | blackjack | roulette | baccarat
deriving DecidableEq, Repr

/-- Static table configuration from the `TableGame` interface; the nested
`minBet`/`maxBet` objects are flattened into their `gc`/`sc` fields. -/
structure TableGame where
  id : String
  type : GameType
  name : String
  minBetGc : Money
  minBetSc : Money
  maxBetGc : Money
  maxBetSc : Money
  maxPlayers : Nat
  houseEdge : Money
deriving DecidableEq, Repr

/-- A player balance: two independent ledgers (`goldCoins`, `sweepCoins`). -/
structure Balance where
  goldCoins : Money
  sweepCoins : Money
deriving DecidableEq, Repr

/-- The fields of `TablePlayer` the engine reads or writes. -/
structure TablePlayer where
  balance : Balance
  currentBet : Money
deriving DecidableEq, Repr

/-- The currency tag `"GC" | "SC"`. -/
inductive Currency : Type
  | GC | SC
deriving DecidableEq, Repr

/-- The untyped per-table blackjack round state object created in
`playBlackjack`: `{deck, dealerHand, playerHands, bets, stage}`. -/
structure BJState where
  deck : List Card
  dealerHand : List Card
  playerHands : List (String × List Card)
  bets : List (String × Money)
  stage : String
deriving DecidableEq, Repr

/-- The engine state: the `tables` map, the `gameStates` map, and the player
store owned by the inherited `GameEngine`. -/
structure Engine where
  tables : List (String × TableGame)
  gameStates : List (String × BJState)
  players : List (String × TablePlayer)
deriving DecidableEq, Repr

/-- The "Classic Blackjack" table from `initializeTables`. -/
def blackjackTable : TableGame :=
  { id := "blackjack-1", type := .blackjack, name := "Classic Blackjack",
    minBetGc := 5, minBetSc := 0.05, maxBetGc := 500, maxBetSc := 5.0,
    maxPlayers := 6, houseEdge := 0.5 }

/-- The "European Roulette" table from `initializeTables`. -/
def rouletteTable : TableGame :=
  { id := "roulette-1", type := .roulette, name := "European Roulette",
    minBetGc := 1, minBetSc := 0.01, maxBetGc := 100, maxBetSc := 1.0,
    maxPlayers := 12, houseEdge := 2.7 }

/-- The "Punto Banco" table from `initializeTables`. -/
def baccaratTable : TableGame :=
  { id := "baccarat-1", type := .baccarat, name := "Punto Banco",
    minBetGc := 10, minBetSc := 0.1, maxBetGc := 1000, maxBetSc := 10.0,
    maxPlayers := 8, houseEdge := 1.06 }

/-- The three tables installed by `initializeTables`, keyed by id. -/
def initialTables : List (String × TableGame) :=
  [("blackjack-1", blackjackTable),
   ("roulette-1", rouletteTable),
   ("baccarat-1", baccaratTable)]

/-- Modelled from the spec: `getPlayer(playerId) → Player | absent` is provided
by the inherited `GameEngine`, whose source is not among the analysed files;
the spec describes it as a lookup in an external player/balance store. -/
def getPlayer (e : Engine) (pid : String) : Option TablePlayer :=
  aget e.players pid

/-- Credit an amount to the gold-coin ledger of a player record. -/
def creditGC (p : TablePlayer) (amount : Money) : TablePlayer :=
  { p with balance := { p.balance with goldCoins := p.balance.goldCoins + amount } }

/-- Credit an amount to the sweep-coin ledger of a player record. -/
def creditSC (p : TablePlayer) (amount : Money) : TablePlayer :=
  { p with balance := { p.balance with sweepCoins := p.balance.sweepCoins + amount } }

/-- Modelled from the spec: `addBalance(playerId, amount, currency)` is provided
by the inherited `GameEngine` (not among the analysed files); the spec
describes it as an atomic credit of the amount to the named ledger. -/
def addBalance (e : Engine) (pid : String) (amount : Money) (currency : Currency) : Engine :=
  { e with players :=
      aupdate e.players pid (fun p =>
        match currency with
        | .GC => creditGC p amount
        | .SC => creditSC p amount) }

/-- The `canAffordWager` method: balance comparison on the requested ledger,
`false` for a missing player. -/
def canAffordWager (e : Engine) (pid : String) (amount : Money) (currency : Currency) : Bool :=
  match getPlayer e pid with
  | none => false
  | some p =>
    match currency with
    | .GC => amount ≤ p.balance.goldCoins
    | .SC => amount ≤ p.balance.sweepCoins

/-! Blackjack. -/

/-- The fallback round state built by `playBlackjack` when `gameStates.get`
returns `undefined`: fresh shuffled deck, empty dealer hand, empty maps,
stage "betting". -/
def freshBJState (shuffle : List Card → List Card) : BJState :=
  { deck := createDeck shuffle, dealerHand := [], playerHands := [],
    bets := [], stage := "betting" }

/-- `deck.pop()` on a JavaScript array: removes and returns the LAST element;
`none` models the `undefined` returned on an empty array. -/
def jsPop (deck : List Card) : Option (Card × List Card) :=
  match deck.reverse with
  | [] => none
  | c :: rest => some (c, rest.reverse)

/-- The dealer draw loop `while (calculateBlackjackScore(dealerHand) < 17)
dealerHand.push(deck.pop()!)`, phrased over the draw-ordered pile (the
reversed deck array, so that popping the array end is taking the head).
Exhausting the deck pushes `undefined` into the hand and the next score
computation throws; that path is `Except.error "TypeError"`. -/
def drawLoop : List Card → List Card → Except String (List Card × List Card)
  | [], hand =>
    if 17 ≤ calculateBlackjackScore hand then .ok ([], hand) else .error "TypeError"
  | c :: rest, hand =>
    if 17 ≤ calculateBlackjackScore hand then .ok (c :: rest, hand)
    else drawLoop rest (hand ++ [c])

/-- The dealer draw loop on the array-ordered deck: returns the remaining deck
(array order) and the final dealer hand. -/
def dealerDraw (deck hand : List Card) : Except String (List Card × List Card) :=
  match drawLoop deck.reverse hand with
  | .error s => .error s
  | .ok (pile, hand2) => .ok (pile.reverse, hand2)

/-- The response object shape returned by `playBlackjack` and
`resolveBlackjackHand`; absent fields default to `none`/`[]`. -/
structure BJResponse where
  success : Bool
  error : Option String := none
  hand : List Card := []
  dealerCard : Option Card := none
  resultTag : Option String := none
  score : Option Nat := none
  playerScore : Option Nat := none
  dealerScore : Option Nat := none
  dealerHand : List Card := []
  payout : Option Money := none
deriving DecidableEq, Repr

/-- The `resolveBlackjackHand` method. The player hand is fetched before the
dealer loop but first dereferenced after it, so a missing hand throws (the
`for..of` inside `calculateBlackjackScore` iterates `undefined`) only once the
dealer loop has finished; a missing bet is JavaScript `undefined`, whose
arithmetic yields `NaN`, modelled by an `Option Money` payout that stays
`none` (`NaN > 0` is false, so no credit happens on that path). -/
def resolveBlackjackHand (e : Engine) (pid : String) (st : BJState) :
    Except String (Engine × BJState × BJResponse) :=
  match dealerDraw st.deck st.dealerHand with
  | .error s => .error s
  | .ok (deck2, dh2) =>
    match aget st.playerHands pid with
    | none => .error "TypeError"
    | some ph =>
      let pScore := calculateBlackjackScore ph
      let dScore := calculateBlackjackScore dh2
      let bet? := aget st.bets pid
      let tagPay : String × Option Money :=
        if 21 < pScore then ("bust", some 0)
        else if 21 < dScore then ("win", bet?.map (· * 2))
        else if dScore < pScore then ("win", bet?.map (· * 2))
        else if pScore < dScore then ("lose", some 0)
        else ("push", bet?)
      let e2 :=
        match tagPay.2 with
        | some pay => if 0 < pay then addBalance e pid pay .GC else e
        | none => e
      .ok (e2, { st with deck := deck2, dealerHand := dh2 },
        { success := true, resultTag := some tagPay.1, playerScore := some pScore,
          dealerScore := some dScore, dealerHand := dh2, payout := tagPay.2 })

/-- Write-back semantics of the round state at the end of a `playBlackjack`
call. The source reads `this.gameStates.get(tableId) || {...fresh...}` and
never calls `this.gameStates.set`: mutations to an object that was already in
the map persist through the shared reference, while a state object created by
the `||` fallback is local to the call and is dropped when the call returns. -/
def commitBJState (e : Engine) (tid : String) (existing : Option BJState)
    (st : BJState) : Engine :=
  match existing with
  | some _ => { e with gameStates := aset e.gameStates tid st }
  | none => e

/-- The `playBlackjack` method. The `bet?` argument models the optional `bet`
parameter (`none` is `undefined`); `!bet` is true for `undefined` and for `0`.
If the deck holds fewer than the popped number of cards, `deck.pop()` returns
`undefined`, the hand receives it, and `calculateBlackjackScore` throws when
it next runs over that hand; those paths are `Except.error "TypeError"`. -/
def playBlackjack (shuffle : List Card → List Card) (e : Engine)
    (pid tid : String) (action : String) (bet? : Option Money) :
    Except String (Engine × BJResponse) :=
  match aget e.tables tid with
  | none => .ok (e, { success := false, error := some "Invalid blackjack table" })
  | some table =>
    if table.type ≠ .blackjack then
      .ok (e, { success := false, error := some "Invalid blackjack table" })
    else
      let existing := aget e.gameStates tid
      let st := existing.getD (freshBJState shuffle)
      match getPlayer e pid with
      | none => .ok (e, { success := false, error := some "Player not found" })
      | some player =>
        match action with
        | "bet" =>
          let invalid : Except String (Engine × BJResponse) :=
            .ok (e, { success := false, error := some "Invalid bet amount" })
          match bet? with
          | none => invalid
          | some bet =>
            if bet = 0 ∨ bet < table.minBetGc ∨ table.maxBetGc < bet then invalid
            else
              let e1 := { e with players := aupdate e.players pid (fun p => { p with currentBet := bet }) }
              let st1 := { st with bets := aset st.bets pid bet }
              match jsPop st1.deck with
              | none => .error "TypeError"
              | some (c1, d1) =>
                match jsPop d1 with
                | none => .error "TypeError"
                | some (c2, d2) =>
                  match jsPop d2 with
                  | none => .error "TypeError"
                  | some (c3, d3) =>
                    match jsPop d3 with
                    | none => .error "TypeError"
                    | some (c4, d4) =>
                      let playerHand := [c1, c2]
                      let dealerHand := [c3, c4]
                      let st2 := { st1 with
                        deck := d4
                        playerHands := aset st1.playerHands pid playerHand
                        dealerHand := dealerHand
                        stage := "playing" }
                      .ok (commitBJState e1 tid existing st2,
                        { success := true, hand := playerHand,
                          dealerCard := some c3,
                          playerScore := some (calculateBlackjackScore playerHand) })
        | "hit" =>
          match aget st.playerHands pid with
          | none => .ok (e, { success := false, error := some "No active hand" })
          | some hand =>
            match jsPop st.deck with
            | none => .error "TypeError"
            | some (c, d1) =>
              let hand2 := hand ++ [c]
              let st2 := { st with deck := d1, playerHands := aset st.playerHands pid hand2 }
              let score := calculateBlackjackScore hand2
              let resultTag := if 21 < score then some "bust" else none
              .ok (commitBJState e tid existing st2,
                { success := true, hand := hand2, score := some score,
                  resultTag := resultTag })
        | "stand" =>
          match resolveBlackjackHand e pid st with
          | .error s => .error s
          | .ok (e2, st2, resp) => .ok (commitBJState e2 tid existing st2, resp)
        | "double" =>
          if ¬ canAffordWager e pid player.currentBet .GC then
            .ok (e, { success := false, error := some "Insufficient funds to double" })
          else
            match aget st.playerHands pid with
            | none => .ok (e, { success := false, error := some "No active hand" })
            | some hand =>
              let e1 := { e with players := aupdate e.players pid (fun p => { p with currentBet := p.currentBet * 2 }) }
              match jsPop st.deck with
              | none => .error "TypeError"
              | some (c, d1) =>
                let st1 := { st with
                  deck := d1
                  playerHands := aset st.playerHands pid (hand ++ [c]) }
                match resolveBlackjackHand e1 pid st1 with
                | .error s => .error s
                | .ok (e2, st2, resp) => .ok (commitBJState e2 tid existing st2, resp)
        | _ => .ok (e, { success := false, error := some "Invalid action" })

/-! Roulette. -/

/-- The `RouletteBet.type` union. -/
inductive RBetType : Type
  | straight | split | street | corner | line
  | dozen | column | red | black | odd | even | low | high
deriving DecidableEq, Repr

/-- A roulette bet as submitted by the caller; `payout` is the caller-supplied
payout multiplier. -/
structure RouletteBet where
  type : RBetType
  numbers : List Nat
  amount : Money
  payout : Money
deriving DecidableEq, Repr

/-- Wheel colors. -/
inductive Color : Type
  | red | black | green
deriving DecidableEq, Repr

/-- The `RouletteResult` interface. -/
structure RouletteResult where
  number : Nat
  color : Color
  isOdd : Bool
  dozen : Nat
  column : Nat
deriving DecidableEq, Repr

/-- The fixed 18-number red set of `generateRouletteResult`. -/
def redNumbers : List Nat :=
  [1, 3, 5, 7, 9, 12, 14, 16, 18, 19, 21, 23, 25, 27, 30, 32, 34, 36]

/-- The `generateRouletteResult` function. `Math.ceil(number / 12)` on a
natural number is `(number + 11) / 12` in natural division. -/
def generateRouletteResult (number : Nat) : RouletteResult :=
  { number := number
    color := if number = 0 then .green
             else if redNumbers.contains number then .red else .black
    isOdd := number % 2 = 1
    dozen := if number = 0 then 0 else (number + 11) / 12
    column := if number = 0 then 0 else (number - 1) % 3 + 1 }

/-- The `checkRouletteBet` function. `bet.numbers[0]` on an empty array is
`undefined`, which compares unequal to every number, hence `numbers.head?`
matched against `some`. The `default` switch arm (covering split, street,
corner and line) returns `false`. -/
def checkRouletteBet (bet : RouletteBet) (result : RouletteResult) : Bool :=
  match bet.type with
  | .straight => bet.numbers.contains result.number
  | .red => result.color = Color.red
  | .black => result.color = Color.black
  | .odd => result.isOdd && result.number ≠ 0
  | .even => !result.isOdd && result.number ≠ 0
  | .low => 1 ≤ result.number && result.number ≤ 18
  | .high => 19 ≤ result.number && result.number ≤ 36
  | .dozen =>
    match bet.numbers.head? with
    | some n => n = result.dozen
    | none => false
  | .column =>
    match bet.numbers.head? with
    | some n => n = result.column
    | none => false
  | _ => false

/-- One entry of the `betResults` array built inside `playRoulette`. -/
structure RBetOutcome where
  type : RBetType
  amount : Money
  isWin : Bool
  payout : Money
deriving DecidableEq, Repr

/-- The per-bet body of the `for (const bet of bets)` loop in `playRoulette`. -/
def rouletteBetResult (bet : RouletteBet) (result : RouletteResult) : RBetOutcome :=
  let isWin := checkRouletteBet bet result
  { type := bet.type, amount := bet.amount, isWin := isWin,
    payout := if isWin then bet.amount * bet.payout else 0 }

/-- The response object returned by `playRoulette`. -/
structure RouletteResponse where
  success : Bool
  error : Option String := none
  result : Option RouletteResult := none
  betResults : List RBetOutcome := []
  totalPayout : Money := 0
deriving DecidableEq, Repr

/-- The `playRoulette` method; `randomNumber` stands for the call to
`Math.floor(Math.random() * 37)` and is passed in as a parameter. -/
def playRoulette (e : Engine) (pid tid : String) (randomNumber : Nat)
    (bets : List RouletteBet) : Engine × RouletteResponse :=
  match aget e.tables tid with
  | none => (e, { success := false, error := some "Invalid roulette table" })
  | some table =>
    if table.type ≠ .roulette then
      (e, { success := false, error := some "Invalid roulette table" })
    else
      let result := generateRouletteResult randomNumber
      let betResults := bets.map (fun bet => rouletteBetResult bet result)
      let totalPayout := (betResults.map (fun r => r.payout)).sum
      let e2 := if 0 < totalPayout then addBalance e pid totalPayout .GC else e
      (e2, { success := true, result := some result, betResults := betResults,
             totalPayout := totalPayout })

/-! Baccarat. -/

/-- The `"player" | "banker" | "tie"` union, used both for the submitted bet
type and for the computed winner. -/
inductive BaccSide : Type
  | player | banker | tie
deriving DecidableEq, Repr

/-- The `BaccaratHand` interface. -/
structure BaccaratHand where
  cards : List Card
  value : Nat
  isNatural : Bool
deriving DecidableEq, Repr

/-- The response object returned by `playBaccarat` (the `BaccaratResult` is
inlined as the two hands plus the winner). -/
structure BaccaratResponse where
  success : Bool
  error : Option String := none
  playerHand : Option BaccaratHand := none
  bankerHand : Option BaccaratHand := none
  winner : Option BaccSide := none
  payout : Money := 0
  betType : Option BaccSide := none
  amount : Money := 0
deriving DecidableEq, Repr

/-- The `playBaccarat` method. A fresh deck is created per call; card draws
follow the source exactly: two player cards, two banker cards, then the
third-card rules, with the banker decision taken by
`shouldBankerDrawThird(bankerValue, thirdCard.value)` where `thirdCard.value`
is the stored blackjack-tagged value field. The natural flags are computed
from the initial two-card values. A `deck.pop()` on an exhausted deck feeds
`undefined` into `calculateBaccaratValue`, which throws: `Except.error`. -/
def playBaccarat (shuffle : List Card → List Card) (e : Engine)
    (pid tid : String) (betType : BaccSide) (amount : Money) :
    Except String (Engine × BaccaratResponse) :=
  match aget e.tables tid with
  | none => .ok (e, { success := false, error := some "Invalid baccarat table" })
  | some table =>
    if table.type ≠ .baccarat then
      .ok (e, { success := false, error := some "Invalid baccarat table" })
    else
      match jsPop (createDeck shuffle) with
      | none => .error "TypeError"
      | some (p1, d1) =>
        match jsPop d1 with
        | none => .error "TypeError"
        | some (p2, d2) =>
          match jsPop d2 with
          | none => .error "TypeError"
          | some (b1, d3) =>
            match jsPop d3 with
            | none => .error "TypeError"
            | some (b2, d4) =>
              let playerCards := [p1, p2]
              let bankerCards := [b1, b2]
              let playerValue := calculateBaccaratValue playerCards
              let bankerValue := calculateBaccaratValue bankerCards
              let playerNatural := 8 ≤ playerValue
              let bankerNatural := 8 ≤ bankerValue
              let step : Except String (List Card × Nat × List Card × Nat) :=
                if ¬ playerNatural ∧ ¬ bankerNatural then
                  if playerValue ≤ 5 then
                    match jsPop d4 with
                    | none => .error "TypeError"
                    | some (third, d5) =>
                      let playerCards2 := playerCards ++ [third]
                      let playerValue2 := calculateBaccaratValue playerCards2
                      if shouldBankerDrawThird bankerValue third.value then
                        match jsPop d5 with
                        | none => .error "TypeError"
                        | some (b3, _) =>
                          let bankerCards2 := bankerCards ++ [b3]
                          .ok (playerCards2, playerValue2, bankerCards2,
                            calculateBaccaratValue bankerCards2)
                      else
                        .ok (playerCards2, playerValue2, bankerCards, bankerValue)
                  else if bankerValue ≤ 5 then
                    match jsPop d4 with
                    | none => .error "TypeError"
                    | some (b3, _) =>
                      let bankerCards2 := bankerCards ++ [b3]
                      .ok (playerCards, playerValue, bankerCards2,
                        calculateBaccaratValue bankerCards2)
                  else
                    .ok (playerCards, playerValue, bankerCards, bankerValue)
                else
                  .ok (playerCards, playerValue, bankerCards, bankerValue)
              match step with
              | .error s => .error s
              | .ok (pc, pv, bc, bv) =>
                let winner : BaccSide :=
                  if bv < pv then .player else if pv < bv then .banker else .tie
                let payout : Money :=
                  if betType = winner then
                    match betType with
                    | .player => amount * 2
                    | .banker => amount * 1.95
                    | .tie => amount * 9
                  else 0
                let e2 := if 0 < payout then addBalance e pid payout .GC else e
                .ok (e2,
                  { success := true
                    playerHand := some ⟨pc, pv, playerNatural⟩
                    bankerHand := some ⟨bc, bv, bankerNatural⟩
                    winner := some winner
                    payout := payout
                    betType := some betType
                    amount := amount })

/-! Concrete fixtures used by counterexamples and witnesses. -/

/-- A demonstration engine: the three initialized tables, the (always empty)
game-state map, and one registered player with a thousand gold coins. -/
def demoEngine : Engine :=
  { tables := initialTables
    gameStates := []
    players := [("p1", { balance := { goldCoins := 1000, sweepCoins := 0 }, currentBet := 0 })] }

/-- First step of the claim-C1 scenario: a valid initial bet of 10 gold coins
at the blackjack table (identity shuffle). -/
def c1BetStep : Except String (Engine × BJResponse) :=
  playBlackjack id demoEngine "p1" "blackjack-1" "bet" (some 10)

/-- The engine as left behind by the bet step. -/
def c1EngineAfterBet : Engine :=
  match c1BetStep with
  | .ok (e1, _) => e1
  | .error _ => demoEngine

/-- Second step of the claim-C1 scenario: a hit at the same table. -/
def c1HitStep : Except String (Engine × BJResponse) :=
  playBlackjack id c1EngineAfterBet "p1" "blackjack-1" "hit" none

/-- Success flag of a blackjack call result, when it did not throw. -/
def bjSuccessOf (r : Except String (Engine × BJResponse)) : Option Bool :=
  r.toOption.map (fun x => x.2.success)

/-- Error message of a blackjack call result, when it did not throw. -/
def bjErrorOf (r : Except String (Engine × BJResponse)) : Option (Option String) :=
  r.toOption.map (fun x => x.2.error)

/-- The thrown exception of a blackjack call result, if any. -/
def bjThrownOf (r : Except String (Engine × BJResponse)) : Option String :=
  match r with
  | .error s => some s
  | .ok _ => none

/-- A five-card deck (in array order; `pop` draws from the right end) forcing
the claim-C2 scenario: the player is dealt 2♠ 3♠ (value 5, draws), the banker
A♠ 2♥ (value 3, no natural), and the player third card is K♠. -/
def c2Deck : List Card :=
  [⟨.spades, .K, 10⟩, ⟨.hearts, .r2, 2⟩, ⟨.spades, .A, 11⟩,
   ⟨.spades, .r3, 3⟩, ⟨.spades, .r2, 2⟩]

/-- The claim-C2 baccarat round, run with a shuffle stub returning `c2Deck`. -/
def c2Run : Except String (Engine × BaccaratResponse) :=
  playBaccarat (fun _ => c2Deck) demoEngine "p1" "baccarat-1" .player 10

/-- Card counts of both hands of a baccarat call result. -/
def baccHandSizes (r : Except String (Engine × BaccaratResponse)) :
    Option (Nat × Nat) :=
  r.toOption.bind (fun x =>
    match x.2.playerHand, x.2.bankerHand with
    | some ph, some bh => some (ph.cards.length, bh.cards.length)
    | _, _ => none)

/-- Cards and values of both hands of a baccarat call result. -/
def baccHandData (r : Except String (Engine × BaccaratResponse)) :
    Option (List Card × Nat × List Card × Nat) :=
  r.toOption.bind (fun x =>
    match x.2.playerHand, x.2.bankerHand with
    | some ph, some bh => some (ph.cards, ph.value, bh.cards, bh.value)
    | _, _ => none)

/-- A second value assignment written from the claim wording (ace is 11; T,
J, Q, K are 10; the numeric ranks carry their face value), used to compare
the stored deck values against the specification. -/
def specBlackjackCardValue : Rank → Nat
  | .A => 11
  | .r2 => 2 | .r3 => 3 | .r4 => 4 | .r5 => 5 | .r6 => 6
  | .r7 => 7 | .r8 => 8 | .r9 => 9
  | .T => 10 | .J => 10 | .Q => 10 | .K => 10

/-! Supporting lemmas. -/

/-- Lookup after an in-place update of the same key applies the update. -/
theorem aget_aupdate_self {α : Type} (m : List (String × α)) (k : String) (f : α → α) :
    aget (aupdate m k f) k = (aget m k).map f := by
  induction m with
  | nil => rfl
  | cons hd t ih =>
    obtain ⟨k1, v⟩ := hd
    by_cases h : k1 = k
    · simp [aupdate, aget, h]
    · simp [aupdate, aget, h, ih]

/-- Unfolding of the accumulator loop of `calculateBlackjackScore`: the first
component is the initial score plus the ace-as-11 card sum, the second the
initial ace count plus the number of aces. -/
theorem bjFold_go (l : List Card) (s a : Nat) :
    l.foldl (fun acc c =>
        if c.rank = .A then (acc.1 + 11, acc.2 + 1) else (acc.1 + c.value, acc.2)) (s, a)
      = (s + (l.map (fun c => if c.rank = Rank.A then 11 else c.value)).sum,
         a + l.countP (fun c => decide (c.rank = Rank.A))) := by
  induction l generalizing s a with
  | nil => simp
  | cons c t ih =>
    by_cases h : c.rank = Rank.A
    · simp only [List.foldl_cons, h, if_true, ih, List.map_cons, List.sum_cons,
        List.countP_cons, decide_eq_true_eq, if_pos, Prod.mk.injEq]
      constructor <;> omega
    · simp only [List.foldl_cons, h, if_false, ih, List.map_cons, List.sum_cons,
        List.countP_cons, decide_eq_true_eq, if_neg h, if_false, Prod.mk.injEq]
      constructor <;> omega

/-- The ace-adjustment loop subtracts 10 a number of times bounded by the ace
count; it stops at or below 21 unless it ran out of aces, and every earlier
stage was above 21. -/
theorem adjustAces_spec (a s : Nat) :
    ∃ j, j ≤ a ∧ adjustAces s a = s - 10 * j ∧ (adjustAces s a ≤ 21 ∨ j = a) ∧
      ∀ i, i < j → 21 < s - 10 * i := by
  induction a generalizing s with
  | zero => exact ⟨0, le_refl 0, by simp [adjustAces], Or.inr rfl, fun i hi => absurd hi (by omega)⟩
  | succ a ih =>
    by_cases h : 21 < s
    · obtain ⟨j, hj, heq, hda, hlt⟩ := ih (s - 10)
      refine ⟨j + 1, by omega, ?_, ?_, ?_⟩
      · simp only [adjustAces, if_pos h]
        omega
      · rcases hda with h1 | h1
        · exact Or.inl (by simp only [adjustAces, if_pos h]; omega)
        · exact Or.inr (by omega)
      · intro i hi
        match i with
        | 0 => omega
        | i + 1 =>
          have := hlt i (by omega)
          omega
    · exact ⟨0, by omega, by simp [adjustAces, h], Or.inl (by simp [adjustAces, h]; omega),
        fun i hi => absurd hi (by omega)⟩

/-- The blackjack score equals the adjustment loop applied to the ace-as-11
sum and ace count. -/
theorem calculateBlackjackScore_eq (hand : List Card) :
    calculateBlackjackScore hand
      = adjustAces ((hand.map (fun c => if c.rank = Rank.A then 11 else c.value)).sum)
          (hand.countP (fun c => decide (c.rank = Rank.A))) := by
  unfold calculateBlackjackScore bjFold
  rw [bjFold_go]
  simp

/-- The reduction loop of `calculateBaccaratValue` sums the per-card values. -/
theorem baccFold_go (l : List Card) (s : Nat) :
    l.foldl (fun sum c => sum + baccaratCardValue c.rank) s
      = s + (l.map (fun c => baccaratCardValue c.rank)).sum := by
  induction l generalizing s with
  | nil => simp
  | cons c t ih => simp [ih]; omega

/-- Popping a nonempty JavaScript array yields its last element and shortens
it by one. -/
theorem jsPop_of_pos {l : List Card} (h : 1 ≤ l.length) :
    ∃ c rest, jsPop l = some (c, rest) ∧ rest.length = l.length - 1 := by
  cases hr : l.reverse with
  | nil =>
    rw [List.reverse_eq_nil_iff] at hr
    subst hr
    simp at h
  | cons c t =>
    refine ⟨c, t.reverse, by simp [jsPop, hr], ?_⟩
    have : l.reverse.length = l.length := List.length_reverse l
    rw [hr] at this
    simp at this ⊢
    omega

/-- When the dealer loop terminates normally, the final hand extends the
initial one, scores at least 17, and every intermediate hand scored below
17 (the loop draws exactly while the score is below 17). -/
theorem drawLoop_hand_spec (pile : List Card) :
    ∀ hand pile2 hand2, drawLoop pile hand = .ok (pile2, hand2) →
      ∃ drawn, hand2 = hand ++ drawn ∧ 17 ≤ calculateBlackjackScore hand2 ∧
        ∀ k, k < drawn.length → calculateBlackjackScore (hand ++ drawn.take k) < 17 := by
  induction pile with
  | nil =>
    intro hand pile2 hand2 h
    by_cases h17 : 17 ≤ calculateBlackjackScore hand
    · simp only [drawLoop, if_pos h17, Except.ok.injEq, Prod.mk.injEq] at h
      obtain ⟨-, h2⟩ := h
      subst h2
      exact ⟨[], by simp, h17, fun k hk => absurd hk (by simp)⟩
    · simp [drawLoop, h17] at h
  | cons c rest ih =>
    intro hand pile2 hand2 h
    by_cases h17 : 17 ≤ calculateBlackjackScore hand
    · simp only [drawLoop, if_pos h17, Except.ok.injEq, Prod.mk.injEq] at h
      obtain ⟨-, h2⟩ := h
      subst h2
      exact ⟨[], by simp, h17, fun k hk => absurd hk (by simp)⟩
    · simp only [drawLoop, if_neg h17] at h
      obtain ⟨drawn, hd1, hd2, hd3⟩ := ih (hand ++ [c]) pile2 hand2 h
      refine ⟨c :: drawn, by simpa using hd1, hd2, ?_⟩
      intro k hk
      match k with
      | 0 => simpa using (by omega : calculateBlackjackScore hand < 17)
      | k + 1 =>
        have := hd3 k (by simpa using hk)
        simpa using this

/-- Transfer of `drawLoop_hand_spec` across the array-order wrapper. -/
theorem dealerDraw_hand_spec {deck hand deck2 hand2 : List Card}
    (h : dealerDraw deck hand = .ok (deck2, hand2)) :
    ∃ drawn, hand2 = hand ++ drawn ∧ 17 ≤ calculateBlackjackScore hand2 ∧
      ∀ k, k < drawn.length → calculateBlackjackScore (hand ++ drawn.take k) < 17 := by
  unfold dealerDraw at h
  cases hdl : drawLoop deck.reverse hand with
  | error s => rw [hdl] at h; exact absurd h (by simp)
  | ok pr =>
    obtain ⟨pile2, hv⟩ := pr
    rw [hdl] at h
    simp only [Except.ok.injEq, Prod.mk.injEq] at h
    obtain ⟨-, h3⟩ := h
    subst h3
    exact drawLoop_hand_spec deck.reverse hand pile2 hv hdl

/-! Claim theorems. -/

/-- C1. The claim states that blackjack round state persists across calls for
the same table, so that a "hit" after a successful "bet" finds the active
hand. The code never stores the freshly created state object back into the
`gameStates` map (there is no `gameStates.set` call), so the state is lost:
the bet succeeds, the game-state map is still empty afterwards, and the
subsequent hit fails with "No active hand". This theorem evaluates the code
at that failing input. -/
theorem C1_round_state_not_persisted :
    bjSuccessOf c1BetStep = some true ∧
    c1EngineAfterBet.gameStates = [] ∧
    bjSuccessOf c1HitStep = some false ∧
    bjErrorOf c1HitStep = some (some "No active hand") := by
  decide

/-- C2. The claim states that the banker draw decision is keyed by the
baccarat value of the player's third card, so that with banker value 3 a
third-card ten or face card (baccarat value 0, in the draw set) makes the
banker draw. The code passes `thirdCard.value`, the blackjack-tagged value
(10 for a king), which is not in the rule row, so the banker stands. The
concrete round `c2Run` (player 2♠ 3♠ + K♠ = 5, banker A♠ 2♥ = 3) ends with
the banker holding only two cards. -/
theorem C2_banker_rule_gets_blackjack_value :
    shouldBankerDrawThird 3 ((⟨Suit.spades, Rank.K, 10⟩ : Card)).value = false ∧
    baccaratCardValue Rank.K = 0 ∧
    ([0, 1, 2, 3, 4, 5, 6, 7, 9].contains (baccaratCardValue Rank.K)) = true ∧
    baccHandData c2Run
      = some ([⟨.spades, .r2, 2⟩, ⟨.spades, .r3, 3⟩, ⟨.spades, .K, 10⟩], 5,
              [⟨.spades, .A, 11⟩, ⟨.hearts, .r2, 2⟩], 3) := by
  decide

/-- C3. The claim states that every error condition of every blackjack action
is returned as a structured `success:false` result and never thrown, in
particular "stand" with no active hand. The code guards "hit" and "double"
with a "No active hand" check but not "stand": resolution fetches the
missing hand and `calculateBlackjackScore` iterates `undefined`, throwing a
TypeError. This theorem evaluates the code at that failing input. -/
theorem C3_stand_without_hand_throws :
    bjThrownOf (playBlackjack id demoEngine "p1" "blackjack-1" "stand" none)
      = some "TypeError" ∧
    bjErrorOf (playBlackjack id demoEngine "p1" "blackjack-1" "hit" none)
      = some (some "No active hand") := by
  decide

/-- C5. For every hand of well-formed cards, `calculateBlackjackScore` is the
ace-as-11 sum minus 10 for some number of aces bounded by the ace count; it
is at most 21 unless all aces were downgraded; and it dominates every
achievable total that is at most 21 (so it is the highest achievable total
not exceeding 21, or the minimal over-21 total when none exists). Two aces
score 12, ace-king scores 21, three kings score 30. -/
theorem C5_blackjack_score_characterization (hand : List Card) (hne : hand ≠ [])
    (hwf : ∀ c ∈ hand, c.value = cardValueOf c.rank) :
    (∃ j, j ≤ hand.countP (fun c => decide (c.rank = Rank.A)) ∧
        calculateBlackjackScore hand
          = (hand.map (fun c => cardValueOf c.rank)).sum - 10 * j) ∧
    (calculateBlackjackScore hand ≤ 21 ∨
      calculateBlackjackScore hand
        = (hand.map (fun c => cardValueOf c.rank)).sum
            - 10 * hand.countP (fun c => decide (c.rank = Rank.A))) ∧
    (∀ j, j ≤ hand.countP (fun c => decide (c.rank = Rank.A)) →
        (hand.map (fun c => cardValueOf c.rank)).sum - 10 * j ≤ 21 →
        (hand.map (fun c => cardValueOf c.rank)).sum - 10 * j
          ≤ calculateBlackjackScore hand) ∧
    calculateBlackjackScore [⟨.spades, .A, 11⟩, ⟨.hearts, .A, 11⟩] = 12 ∧
    calculateBlackjackScore [⟨.spades, .A, 11⟩, ⟨.hearts, .K, 10⟩] = 21 ∧
    calculateBlackjackScore
      [⟨.clubs, .K, 10⟩, ⟨.diamonds, .K, 10⟩, ⟨.hearts, .K, 10⟩] = 30 := by
  have hmap : hand.map (fun c => if c.rank = Rank.A then 11 else c.value)
      = hand.map (fun c => cardValueOf c.rank) := by
    apply List.map_congr_left
    intro c hc
    by_cases hA : c.rank = Rank.A
    · simp [hA, cardValueOf]
    · rw [if_neg hA, hwf c hc]
  have hs := calculateBlackjackScore_eq hand
  rw [hmap] at hs
  obtain ⟨j, hj, heq, hda, hlt⟩ :=
    adjustAces_spec (hand.countP (fun c => decide (c.rank = Rank.A)))
      ((hand.map (fun c => cardValueOf c.rank)).sum)
  refine ⟨⟨j, hj, by rw [hs, heq]⟩, ?_, ?_, by decide, by decide, by decide⟩
  · rcases hda with h1 | h1
    · exact Or.inl (hs ▸ h1)
    · exact Or.inr (by rw [hs, heq, h1])
  · intro k hk hk21
    by_cases hjk : j ≤ k
    · rw [hs, heq]
      exact Nat.sub_le_sub_left (Nat.mul_le_mul_left 10 hjk) _
    · exact absurd hk21 (by have := hlt k (by omega); omega)

/-- C5 witness: the characterization applied to the concrete hand ace-king. -/
theorem C5_witness :
    ([(⟨.spades, .A, 11⟩ : Card), ⟨.hearts, .K, 10⟩] ≠ []) ∧
    (calculateBlackjackScore [⟨.spades, .A, 11⟩, ⟨.hearts, .K, 10⟩] ≤ 21 ∨
      calculateBlackjackScore [⟨.spades, .A, 11⟩, ⟨.hearts, .K, 10⟩]
        = ([(⟨.spades, .A, 11⟩ : Card), ⟨.hearts, .K, 10⟩].map
            (fun c => cardValueOf c.rank)).sum
          - 10 * [(⟨.spades, .A, 11⟩ : Card), ⟨.hearts, .K, 10⟩].countP
              (fun c => decide (c.rank = Rank.A))) := by
  refine ⟨by decide, ?_⟩
  exact (C5_blackjack_score_characterization
    [⟨.spades, .A, 11⟩, ⟨.hearts, .K, 10⟩] (by decide) (by decide)).2.1

/-- C6. Roulette outcome derivation: zero is green with dozen 0 and column 0
and loses every odd/even/low/high bet; every nonzero number up to 36 is red
exactly when it belongs to the fixed red set (else black), its dozen `d`
satisfies `12*(d-1) < n ≤ 12*d` (that is, `d` is the ceiling of `n/12`), and
its column is `(n-1) mod 3 + 1`; number 32 is red, dozen 3, column 2. -/
theorem C6_roulette_outcomes :
    ((generateRouletteResult 0).color = Color.green ∧
      (generateRouletteResult 0).dozen = 0 ∧ (generateRouletteResult 0).column = 0) ∧
    (∀ bet : RouletteBet,
      (bet.type = RBetType.odd ∨ bet.type = RBetType.even ∨
        bet.type = RBetType.low ∨ bet.type = RBetType.high) →
      checkRouletteBet bet (generateRouletteResult 0) = false) ∧
    (∀ n ∈ Finset.Icc 1 36,
      ((generateRouletteResult n).color = Color.red ↔ n ∈ redNumbers) ∧
      ((generateRouletteResult n).color = Color.black ↔ n ∉ redNumbers) ∧
      (12 * ((generateRouletteResult n).dozen - 1) < n ∧
        n ≤ 12 * (generateRouletteResult n).dozen) ∧
      (generateRouletteResult n).column = (n - 1) % 3 + 1) ∧
    ((generateRouletteResult 32).color = Color.red ∧
      (generateRouletteResult 32).dozen = 3 ∧ (generateRouletteResult 32).column = 2) := by
  refine ⟨by decide, ?_, by decide, by decide⟩
  intro bet h
  obtain ⟨ty, nums, amt, pm⟩ := bet
  rcases h with h | h | h | h <;> (dsimp at h; subst h; rfl)

/-- C6 witness: the outcome facts applied at number 32 and to a concrete odd
bet against the zero outcome. -/
theorem C6_witness :
    ((generateRouletteResult 32).color = Color.red ↔ 32 ∈ redNumbers) ∧
    checkRouletteBet ⟨RBetType.odd, [], 1, 2⟩ (generateRouletteResult 0) = false := by
  exact ⟨(C6_roulette_outcomes.2.2.1 32 (by decide)).1,
    C6_roulette_outcomes.2.1 ⟨RBetType.odd, [], 1, 2⟩ (Or.inl rfl)⟩

/-- C7. For every card list, `calculateBaccaratValue` is the sum of the
per-card baccarat values modulo 10, hence always below 10. -/
theorem C7_baccarat_value_in_range (cards : List Card) :
    calculateBaccaratValue cards
      = (cards.map (fun c => baccaratCardValue c.rank)).sum % 10 ∧
    calculateBaccaratValue cards < 10 := by
  have h : calculateBaccaratValue cards
      = (cards.map (fun c => baccaratCardValue c.rank)).sum % 10 := by
    unfold calculateBaccaratValue
    rw [baccFold_go]
    simp
  exact ⟨h, h ▸ Nat.mod_lt _ (by omega)⟩

/-- C9. Any permutation of the constructed deck (the inherited shuffle is
assumed to permute its input) has exactly 52 cards, pairwise distinct
(suit, rank) pairs, contains every suit-rank combination, and stores the
blackjack value on every card. -/
theorem C9_createDeck_wellformed (sh : List Card → List Card)
    (hsh : (createDeck sh).Perm freshDeckBase) :
    (createDeck sh).length = 52 ∧
    ((createDeck sh).map (fun c => (c.suit, c.rank))).Nodup ∧
    (∀ s r, ∃ c ∈ createDeck sh, c.suit = s ∧ c.rank = r) ∧
    (∀ c ∈ createDeck sh, c.value = specBlackjackCardValue c.rank) := by
  refine ⟨?_, ?_, ?_, ?_⟩
  · rw [hsh.length_eq]; decide
  · have hbase : (freshDeckBase.map (fun c => (c.suit, c.rank))).Nodup := by decide
    exact ((hsh.map (fun c => (c.suit, c.rank))).nodup_iff).mpr hbase
  · intro s r
    have hmem : (⟨s, r, cardValueOf r⟩ : Card) ∈ freshDeckBase := by
      cases s <;> cases r <;> decide
    exact ⟨⟨s, r, cardValueOf r⟩, hsh.mem_iff.mpr hmem, rfl, rfl⟩
  · intro c hc
    have hb : ∀ c ∈ freshDeckBase, c.value = specBlackjackCardValue c.rank := by decide
    exact hb c (hsh.mem_iff.mp hc)

/-- C9 witness: the deck facts applied to the identity shuffle. -/
theorem C9_witness :
    (createDeck id).length = 52 ∧
    (∀ c ∈ createDeck id, c.value = specBlackjackCardValue c.rank) := by
  have h := C9_createDeck_wellformed id (List.Perm.refl _)
  exact ⟨h.1, h.2.2.2⟩

/-- C10. Split, street, corner and line bets are representable and accepted
by `playRoulette`, but `checkRouletteBet` sends them to the default arm and
returns false for every outcome, so their payout is always 0: any such bet
submitted in a bet list produces a losing zero-payout entry in the response
of a successful roulette round. -/
theorem C10_dead_bet_types (bet : RouletteBet) (result : RouletteResult)
    (h : bet.type = RBetType.split ∨ bet.type = RBetType.street ∨
      bet.type = RBetType.corner ∨ bet.type = RBetType.line) :
    checkRouletteBet bet result = false ∧
    (rouletteBetResult bet result).payout = 0 ∧
    (∀ (e : Engine) (pid : String) (n : Nat) (bets : List RouletteBet),
      e.tables = initialTables → bet ∈ bets →
      ∃ e2 resp, playRoulette e pid "roulette-1" n bets = (e2, resp) ∧
        resp.success = true ∧
        ({ type := bet.type, amount := bet.amount, isWin := false, payout := 0 }
          : RBetOutcome) ∈ resp.betResults) := by
  have hAll : ∀ res : RouletteResult, checkRouletteBet bet res = false := by
    intro res
    obtain ⟨ty, nums, amt, pm⟩ := bet
    rcases h with h | h | h | h <;> (dsimp at h; subst h; rfl)
  have hrAll : ∀ res, rouletteBetResult bet res
      = { type := bet.type, amount := bet.amount, isWin := false, payout := 0 } := by
    intro res
    simp [rouletteBetResult, hAll res]
  refine ⟨hAll result, by rw [hrAll result], ?_⟩
  intro e pid n bets htab hmem
  obtain ⟨tabs, gss, pls⟩ := e
  dsimp at htab
  subst htab
  refine ⟨_, _, rfl, rfl, ?_⟩
  show ({ type := bet.type, amount := bet.amount, isWin := false, payout := 0 }
    : RBetOutcome) ∈ bets.map (fun b => rouletteBetResult b (generateRouletteResult n))
  rw [← hrAll (generateRouletteResult n)]
  exact List.mem_map_of_mem _ hmem

/-- C10 witness: a concrete split bet loses against a concrete outcome and
appears as a zero-payout entry of a successful concrete round. -/
theorem C10_witness :
    checkRouletteBet ⟨RBetType.split, [1, 2], 5, 17⟩ (generateRouletteResult 1) = false ∧
    ∃ e2 resp, playRoulette demoEngine "p1" "roulette-1" 1
        [⟨RBetType.split, [1, 2], 5, 17⟩] = (e2, resp) ∧
      resp.success = true ∧
      ({ type := RBetType.split, amount := 5, isWin := false, payout := 0 }
        : RBetOutcome) ∈ resp.betResults := by
  have h := C10_dead_bet_types ⟨RBetType.split, [1, 2], 5, 17⟩
    (generateRouletteResult 1) (Or.inl rfl)
  exact ⟨h.1, h.2.2 demoEngine "p1" 1 [⟨RBetType.split, [1, 2], 5, 17⟩] rfl (by decide)⟩

/-- Closed form of `resolveBlackjackHand` when the player has a hand and a
recorded bet and the dealer loop terminates normally. -/
theorem resolveBlackjackHand_eq (e : Engine) (pid : String) (st : BJState)
    (ph deck2 dh2 : List Card) (b : Money)
    (hh : aget st.playerHands pid = some ph)
    (hb : aget st.bets pid = some b)
    (hdd : dealerDraw st.deck st.dealerHand = Except.ok (deck2, dh2)) :
    resolveBlackjackHand e pid st =
      Except.ok
        ((if 0 < (if 21 < calculateBlackjackScore ph then (0 : Money)
            else if 21 < calculateBlackjackScore dh2 then b * 2
            else if calculateBlackjackScore dh2 < calculateBlackjackScore ph then b * 2
            else if calculateBlackjackScore ph < calculateBlackjackScore dh2 then 0
            else b) then
          addBalance e pid (if 21 < calculateBlackjackScore ph then (0 : Money)
            else if 21 < calculateBlackjackScore dh2 then b * 2
            else if calculateBlackjackScore dh2 < calculateBlackjackScore ph then b * 2
            else if calculateBlackjackScore ph < calculateBlackjackScore dh2 then 0
            else b) .GC
         else e),
         { st with deck := deck2, dealerHand := dh2 },
         { success := true
           resultTag := some (if 21 < calculateBlackjackScore ph then "bust"
             else if 21 < calculateBlackjackScore dh2 then "win"
             else if calculateBlackjackScore dh2 < calculateBlackjackScore ph then "win"
             else if calculateBlackjackScore ph < calculateBlackjackScore dh2 then "lose"
             else "push")
           playerScore := some (calculateBlackjackScore ph)
           dealerScore := some (calculateBlackjackScore dh2)
           dealerHand := dh2
           payout := some (if 21 < calculateBlackjackScore ph then (0 : Money)
             else if 21 < calculateBlackjackScore dh2 then b * 2
             else if calculateBlackjackScore dh2 < calculateBlackjackScore ph then b * 2
             else if calculateBlackjackScore ph < calculateBlackjackScore dh2 then 0
             else b) }) := by
  unfold resolveBlackjackHand
  rw [hdd, hh, hb]
  by_cases h1 : 21 < calculateBlackjackScore ph <;>
    by_cases h2 : 21 < calculateBlackjackScore dh2 <;>
    by_cases h3 : calculateBlackjackScore dh2 < calculateBlackjackScore ph <;>
    by_cases h4 : calculateBlackjackScore ph < calculateBlackjackScore dh2 <;>
    simp [h1, h2, h3, h4]

/-- C4. Blackjack dealer resolution and payout: the dealer hand is drawn
while its score is below 17 and stands once at least 17; with recorded bet
`b` the payout is 0 on a player bust, twice the bet when the dealer busts
and the player did not or when the player total strictly exceeds the dealers,
0 when strictly lower, and the bet itself on a tie; a positive payout is
credited exactly once to the gold-coin ledger, and otherwise the engine
state is unchanged. -/
theorem C4_dealer_resolution_and_payout
    (e : Engine) (pid : String) (st : BJState) (p : TablePlayer)
    (ph deck2 dh2 : List Card) (b : Money)
    (hp : aget e.players pid = some p)
    (hh : aget st.playerHands pid = some ph)
    (hb : aget st.bets pid = some b)
    (hdd : dealerDraw st.deck st.dealerHand = Except.ok (deck2, dh2)) :
    (∃ drawn, dh2 = st.dealerHand ++ drawn ∧ 17 ≤ calculateBlackjackScore dh2 ∧
      ∀ k, k < drawn.length →
        calculateBlackjackScore (st.dealerHand ++ drawn.take k) < 17) ∧
    ∃ e2 st2 resp, resolveBlackjackHand e pid st = Except.ok (e2, st2, resp) ∧
      resp.payout = some (if 21 < calculateBlackjackScore ph then (0 : Money)
        else if 21 < calculateBlackjackScore dh2 then b * 2
        else if calculateBlackjackScore dh2 < calculateBlackjackScore ph then b * 2
        else if calculateBlackjackScore ph < calculateBlackjackScore dh2 then 0
        else b) ∧
      st2 = { st with deck := deck2, dealerHand := dh2 } ∧
      (∀ q, resp.payout = some q → 0 < q →
        aget e2.players pid = some (creditGC p q)) ∧
      (∀ q, resp.payout = some q → ¬ 0 < q → e2 = e) := by
  refine ⟨dealerDraw_hand_spec hdd, ?_⟩
  rw [resolveBlackjackHand_eq e pid st ph deck2 dh2 b hh hb hdd]
  refine ⟨_, _, _, rfl, rfl, rfl, ?_, ?_⟩
  · intro q hq hpos
    obtain rfl : _ = q := Option.some_injective _ hq
    rw [if_pos hpos]
    show aget (aupdate e.players pid _) pid = _
    rw [aget_aupdate_self, hp]
    rfl
  · intro q hq hpos
    obtain rfl : _ = q := Option.some_injective _ hq
    rw [if_neg hpos]

/-- C4 witness: player 20 against a standing dealer 19, bet 10, paying 20. -/
theorem C4_witness :
    (aget demoEngine.players "p1"
      = some { balance := { goldCoins := 1000, sweepCoins := 0 }, currentBet := 0 }) ∧
    ∃ e2 st2 resp,
      resolveBlackjackHand demoEngine "p1"
        { deck := []
          dealerHand := [⟨.hearts, .K, 10⟩, ⟨.hearts, .r9, 9⟩]
          playerHands := [("p1", [⟨.spades, .K, 10⟩, ⟨.spades, .Q, 10⟩])]
          bets := [("p1", 10)]
          stage := "playing" } = Except.ok (e2, st2, resp) ∧
      resp.payout = some (10 * 2) := by
  refine ⟨by decide, ?_⟩
  obtain ⟨-, e2, st2, resp, hres, hpay, -, -, -⟩ :=
    C4_dealer_resolution_and_payout demoEngine "p1"
      { deck := []
        dealerHand := [⟨.hearts, .K, 10⟩, ⟨.hearts, .r9, 9⟩]
        playerHands := [("p1", [⟨.spades, .K, 10⟩, ⟨.spades, .Q, 10⟩])]
        bets := [("p1", 10)]
        stage := "playing" }
      { balance := { goldCoins := 1000, sweepCoins := 0 }, currentBet := 0 }
      [⟨.spades, .K, 10⟩, ⟨.spades, .Q, 10⟩] []
      [⟨.hearts, .K, 10⟩, ⟨.hearts, .r9, 9⟩] 10
      (by decide) (by decide) (by decide) (by rfl)
  refine ⟨e2, st2, resp, hres, ?_⟩
  rw [hpay]
  have hps : calculateBlackjackScore [(⟨.spades, .K, 10⟩ : Card), ⟨.spades, .Q, 10⟩] = 20 := by
    decide
  have hds : calculateBlackjackScore [(⟨.hearts, .K, 10⟩ : Card), ⟨.hearts, .r9, 9⟩] = 19 := by
    decide
  rw [hps, hds]
  norm_num

/-- Table lookup for the blackjack table. -/
theorem aget_blackjack : aget initialTables "blackjack-1" = some blackjackTable := rfl

/-- Table lookup for the roulette table. -/
theorem aget_roulette : aget initialTables "roulette-1" = some rouletteTable := rfl

/-- Table lookup for the baccarat table. -/
theorem aget_baccarat : aget initialTables "baccarat-1" = some baccaratTable := rfl

/-- C8. Bet-amount range validation happens only for the blackjack initial
bet: against the initialized tables, a "bet" action fails with "Invalid bet
amount" exactly when the amount is missing or outside the blackjack table
gold-coin bounds, while `playRoulette` and `playBaccarat` report success for
every stake amount (no range check at all). -/
theorem C8_bet_range_validation (sh : List Card → List Card) (e : Engine)
    (pid : String) (p : TablePlayer) (bet? : Option Money)
    (htab : e.tables = initialTables)
    (hp : aget e.players pid = some p)
    (hgs : aget e.gameStates "blackjack-1" = none)
    (hdeck : 6 ≤ (createDeck sh).length) :
    ((∃ e2 r, playBlackjack sh e pid "blackjack-1" "bet" bet? = .ok (e2, r) ∧
        r.success = false ∧ r.error = some "Invalid bet amount")
      ↔ (bet? = none ∨ ∃ b, bet? = some b ∧
          (b < blackjackTable.minBetGc ∨ blackjackTable.maxBetGc < b))) ∧
    (∀ (n : Nat) (bets : List RouletteBet),
      ∃ e2 r, playRoulette e pid "roulette-1" n bets = (e2, r) ∧ r.success = true) ∧
    (∀ (bt : BaccSide) (amount : Money),
      ∃ e2 r, playBaccarat sh e pid "baccarat-1" bt amount = .ok (e2, r) ∧
        r.success = true) := by
  obtain ⟨tabs, gss, pls⟩ := e
  dsimp at htab hp hgs
  subst htab
  refine ⟨?_, ?_, ?_⟩
  · -- blackjack bet validation
    rcases bet? with _ | b
    · simp [playBlackjack, aget_blackjack, hgs, getPlayer, hp, blackjackTable]
      exact ⟨_, _, ⟨rfl, rfl⟩, rfl, rfl⟩
    · by_cases hcond : b = 0 ∨ b < (5 : Money) ∨ (500 : Money) < b
      · simp only [playBlackjack, aget_blackjack, hgs, getPlayer, hp, blackjackTable,
          Option.getD_none]
        rw [if_pos hcond]
        constructor
        · intro _
          rcases hcond with rfl | h | h
          · exact Or.inr ⟨0, rfl, Or.inl (by norm_num)⟩
          · exact Or.inr ⟨b, rfl, Or.inl h⟩
          · exact Or.inr ⟨b, rfl, Or.inr h⟩
        · intro _
          exact ⟨_, _, rfl, rfl, rfl⟩
      · obtain ⟨c1, d1, hpop1, hlen1⟩ :=
          jsPop_of_pos (l := createDeck sh) (by omega)
        obtain ⟨c2, d2, hpop2, hlen2⟩ := jsPop_of_pos (l := d1) (by omega)
        obtain ⟨c3, d3, hpop3, hlen3⟩ := jsPop_of_pos (l := d2) (by omega)
        obtain ⟨c4, d4, hpop4, hlen4⟩ := jsPop_of_pos (l := d3) (by omega)
        have hnr : ¬ (b < (5 : Money) ∨ (500 : Money) < b) :=
          fun h => hcond (Or.inr h)
        have hb0 : ¬ b = 0 := fun h => hcond (Or.inl h)
        simp only [playBlackjack, aget_blackjack, hgs, getPlayer, hp, blackjackTable,
          Option.getD_none, freshBJState, commitBJState, hpop1, hpop2, hpop3, hpop4]
        simp [hcond, hnr, hb0, blackjackTable]
  · -- roulette: no amount validation
    intro n bets
    exact ⟨_, _, rfl, rfl⟩
  · -- baccarat: no amount validation
    intro bt amount
    obtain ⟨p1c, d1, hpop1, hlen1⟩ :=
      jsPop_of_pos (l := createDeck sh) (by omega)
    obtain ⟨p2c, d2, hpop2, hlen2⟩ := jsPop_of_pos (l := d1) (by omega)
    obtain ⟨b1c, d3, hpop3, hlen3⟩ := jsPop_of_pos (l := d2) (by omega)
    obtain ⟨b2c, d4, hpop4, hlen4⟩ := jsPop_of_pos (l := d3) (by omega)
    by_cases hn : calculateBaccaratValue [p1c, p2c] < 8 ∧
        calculateBaccaratValue [b1c, b2c] < 8
    · by_cases hp5 : calculateBaccaratValue [p1c, p2c] ≤ 5
      · obtain ⟨tc, d5, hpop5, hlen5⟩ := jsPop_of_pos (l := d4) (by omega)
        by_cases hdr : shouldBankerDrawThird (calculateBaccaratValue [b1c, b2c])
            tc.value = true
        · obtain ⟨b3c, d6, hpop6, hlen6⟩ := jsPop_of_pos (l := d5) (by omega)
          simp only [playBaccarat, aget_baccarat, baccaratTable, hpop1, hpop2, hpop3,
            hpop4, hpop5, hpop6]
          simp [hn, hp5, hdr, baccaratTable]
          exact ⟨_, _, ⟨rfl, rfl⟩, rfl⟩
        · simp only [playBaccarat, aget_baccarat, baccaratTable, hpop1, hpop2, hpop3,
            hpop4, hpop5]
          simp [hn, hp5, hdr, baccaratTable]
          exact ⟨_, _, ⟨rfl, rfl⟩, rfl⟩
      · by_cases hb5 : calculateBaccaratValue [b1c, b2c] ≤ 5
        · obtain ⟨b3c, d5, hpop5, hlen5⟩ := jsPop_of_pos (l := d4) (by omega)
          simp only [playBaccarat, aget_baccarat, baccaratTable, hpop1, hpop2, hpop3,
            hpop4, hpop5]
          simp [hn, hp5, hb5, baccaratTable]
          exact ⟨_, _, ⟨rfl, rfl⟩, rfl⟩
        · simp only [playBaccarat, aget_baccarat, baccaratTable, hpop1, hpop2, hpop3,
            hpop4]
          simp [hn, hp5, hb5, baccaratTable]
          exact ⟨_, _, ⟨rfl, rfl⟩, rfl⟩
    · simp only [playBaccarat, aget_baccarat, baccaratTable, hpop1, hpop2, hpop3,
        hpop4]
      simp [hn, baccaratTable]
      exact ⟨_, _, ⟨rfl, rfl⟩, rfl⟩

/-- C8 witness: a 1000 gold-coin blackjack bet (above the 500 maximum) is
rejected as "Invalid bet amount", while a baccarat stake of 123456 and a
roulette stake of 1000000 are accepted without any range check. -/
theorem C8_witness :
    (∃ e2 r, playBlackjack id demoEngine "p1" "blackjack-1" "bet" (some 1000)
        = .ok (e2, r) ∧ r.success = false ∧ r.error = some "Invalid bet amount") ∧
    (∃ e2 r, playBaccarat id demoEngine "p1" "baccarat-1" BaccSide.player 123456
        = .ok (e2, r) ∧ r.success = true) ∧
    (∃ e2 r, playRoulette demoEngine "p1" "roulette-1" 0
        [⟨RBetType.straight, [7], 1000000, 35⟩] = (e2, r) ∧ r.success = true) := by
  have h := C8_bet_range_validation id demoEngine "p1"
    { balance := { goldCoins := 1000, sweepCoins := 0 }, currentBet := 0 }
    (some 1000) rfl rfl rfl (by decide)
  exact ⟨h.1.mpr (Or.inr ⟨1000, rfl, Or.inr (by norm_num [blackjackTable])⟩),
    h.2.2 BaccSide.player 123456,
    h.2.1 0 [⟨RBetType.straight, [7], 1000000, 35⟩]⟩

end TableGames
